import Mathlib

/-!
# Verification of the shiba game client core

Shallow embedding of the provably-fair crash verifier (`src/Lib.js`), the
incremental least-squares tick estimator (`src/LinearModel.js`) and the
game-session state machine (`src/unnamed/part_000`, the socket client),
together with theorems settling the frozen specification claims.
-/

/-! ## JavaScript number values

The tick estimator and the next-tick prediction code exercise JavaScript's
special numeric values: reading the never-initialized `sx2` property yields
`undefined`, arithmetic on `undefined` yields `NaN`, and division of a
nonzero number by zero yields a signed infinity.  We model a JavaScript
numeric value as either an exact rational or one of the special values.
Rounding of finite doubles is not modelled; every finite value appearing in
the verified computations below is exactly representable, and the
NaN/infinity propagation rules are value-independent. Signed zero is not
modelled; no verified computation divides by a negative zero. -/

inductive JSNum where
  | num (q : ℚ)
  | nan
  | inf
  | ninf
  | undef
  deriving DecidableEq, Repr

namespace JSNum

/-- JavaScript ToNumber as applied by the arithmetic operators: `undefined` converts
to `NaN`; every other value stands for itself. -/
def toNum : JSNum → JSNum
  | undef => nan
  | x => x

/-- JavaScript binary `+` on numeric values. -/
def add (a b : JSNum) : JSNum :=
  match toNum a, toNum b with
  | num x, num y => num (x + y)
  | num _, inf => inf
  | inf, num _ => inf
  | inf, inf => inf
  | num _, ninf => ninf
  | ninf, num _ => ninf
  | ninf, ninf => ninf
  | _, _ => nan

/-- JavaScript binary `-` on numeric values. -/
def sub (a b : JSNum) : JSNum :=
  match toNum a, toNum b with
  | num x, num y => num (x - y)
  | num _, inf => ninf
  | inf, num _ => inf
  | inf, ninf => inf
  | num _, ninf => inf
  | ninf, num _ => ninf
  | ninf, inf => ninf
  | _, _ => nan

/-- JavaScript binary `*` on numeric values. -/
def mul (a b : JSNum) : JSNum :=
  match toNum a, toNum b with
  | num x, num y => num (x * y)
  | num x, inf => if x > 0 then inf else if x < 0 then ninf else nan
  | inf, num y => if y > 0 then inf else if y < 0 then ninf else nan
  | num x, ninf => if x > 0 then ninf else if x < 0 then inf else nan
  | ninf, num y => if y > 0 then ninf else if y < 0 then inf else nan
  | inf, inf => inf
  | ninf, ninf => inf
  | inf, ninf => ninf
  | ninf, inf => ninf
  | _, _ => nan

/-- JavaScript binary `/` on numeric values.  Division of a nonzero finite
number by (positive) zero yields a signed infinity; `0/0` yields `NaN`. -/
def div (a b : JSNum) : JSNum :=
  match toNum a, toNum b with
  | num x, num y =>
      if y = 0 then (if x > 0 then inf else if x < 0 then ninf else nan)
      else num (x / y)
  | num _, inf => num 0
  | num _, ninf => num 0
  | inf, num y => if y < 0 then ninf else inf
  | ninf, num y => if y < 0 then inf else ninf
  | _, _ => nan

end JSNum

/-! ## `src/LinearModel.js`

```js
function LinearModel() {
  this.n     = 0;
  this.sxy   = 0;
  this.sx    = 0;
  this.sy    = 0;
  this.alpha = 0;
  this.beta  = 0;
}
```
The constructor never initializes `sx2`, so reading `this.sx2` yields
`undefined`; and nothing in the file ever increments `this.n`, so it stays
at `0` forever. -/

structure LinearModel where
  n : JSNum
  sxy : JSNum
  sx : JSNum
  sy : JSNum
  alpha : JSNum
  beta : JSNum
  sx2 : JSNum
  deriving DecidableEq, Repr

/-- The `LinearModel` constructor.  `sx2` is absent from the constructor
body, hence `undefined`. -/
def LinearModel.init : LinearModel :=
  { n := .num 0, sxy := .num 0, sx := .num 0, sy := .num 0,
    alpha := .num 0, beta := .num 0, sx2 := .undef }

/-- The method `LinearModel.prototype.add`: updates the running sums (note: not `n`,
which the source never touches) and recomputes `beta` and `alpha`:

```js
this.sxy += x * y; this.sx += x; this.sy += y; this.sx2 += x * x;
this.beta  = (this.sxy - this.sx * this.sy / this.n) /
             (this.sx2 - this.sx * this.sx / this.n);
this.alpha = (this.sy - this.beta * this.sx) / this.n;
``` -/
def LinearModel.add (m : LinearModel) (x y : ℚ) : LinearModel :=
  let sxy := m.sxy.add (JSNum.mul (.num x) (.num y))
  let sx := m.sx.add (.num x)
  let sy := m.sy.add (.num y)
  let sx2 := m.sx2.add (JSNum.mul (.num x) (.num x))
  let beta :=
    JSNum.div (sxy.sub (JSNum.div (sx.mul sy) m.n))
      (sx2.sub (JSNum.div (sx.mul sx) m.n))
  let alpha := JSNum.div (sy.sub (beta.mul sx)) m.n
  { n := m.n, sxy := sxy, sx := sx, sy := sy,
    alpha := alpha, beta := beta, sx2 := sx2 }

/-- The method `LinearModel.prototype.evaluate`: `this.alpha + x * this.beta`. -/
def LinearModel.evaluate (m : LinearModel) (x : ℚ) : JSNum :=
  m.alpha.add (JSNum.mul (.num x) m.beta)

/-! ## HMAC-SHA256

`Lib.crashPoint` calls node's `crypto.createHmac('sha256', serverSeed)`.
We model that library routine by a full executable implementation of
SHA-256 (FIPS 180-4) and HMAC (RFC 2104) over byte lists, with 32-bit
words represented as naturals reduced modulo `2^32`. -/

/-- Reduce modulo the 32-bit word size. -/
def w32 (x : ℕ) : ℕ := x % 4294967296

/-- Bitwise complement within 32 bits (inputs are already `< 2^32`). -/
def not32 (x : ℕ) : ℕ := 4294967295 - x % 4294967296

/-- Right rotation of a 32-bit word. -/
def rotr (n x : ℕ) : ℕ :=
  let y := x % 4294967296
  (y >>> n) ||| ((y <<< (32 - n)) % 4294967296)

/-- The 64 SHA-256 round constants of FIPS 180-4, in decimal. -/
def shaK : List ℕ :=
  [1116352408, 1899447441, 3049323471, 3921009573,
   961987163, 1508970993, 2453635748, 2870763221,
   3624381080, 310598401, 607225278, 1426881987,
   1925078388, 2162078206, 2614888103, 3248222580,
   3835390401, 4022224774, 264347078, 604807628,
   770255983, 1249150122, 1555081692, 1996064986,
   2554220882, 2821834349, 2952996808, 3210313671,
   3336571891, 3584528711, 113926993, 338241895,
   666307205, 773529912, 1294757372, 1396182291,
   1695183700, 1986661051, 2177026350, 2456956037,
   2730485921, 2820302411, 3259730800, 3345764771,
   3516065817, 3600352804, 4094571909, 275423344,
   430227734, 506948616, 659060556, 883997877,
   958139571, 1322822218, 1537002063, 1747873779,
   1955562222, 2024104815, 2227730452, 2361852424,
   2428436474, 2756734187, 3204031479, 3329325298]

/-- The eight working variables `a`–`h` of the SHA-256 compression loop. -/
structure Sha8 where
  a : ℕ
  b : ℕ
  c : ℕ
  d : ℕ
  e : ℕ
  f : ℕ
  g : ℕ
  h : ℕ
  deriving DecidableEq, Repr

/-- The initial SHA-256 hash value of FIPS 180-4, in decimal. -/
def shaInit : Sha8 :=
  ⟨1779033703, 3144134277, 1013904242, 2773480762,
   1359893119, 2600822924, 528734635, 1541459225⟩

/-- One round of the SHA-256 compression function. -/
def shaRound (st : Sha8) (k w : ℕ) : Sha8 :=
  let s1 := rotr 6 st.e ^^^ rotr 11 st.e ^^^ rotr 25 st.e
  let ch := (st.e &&& st.f) ^^^ (not32 st.e &&& st.g)
  let temp1 := w32 (st.h + s1 + ch + k + w)
  let s0 := rotr 2 st.a ^^^ rotr 13 st.a ^^^ rotr 22 st.a
  let mj := (st.a &&& st.b) ^^^ (st.a &&& st.c) ^^^ (st.b &&& st.c)
  let temp2 := w32 (s0 + mj)
  ⟨w32 (temp1 + temp2), st.a, st.b, st.c, w32 (st.d + temp1), st.e, st.f, st.g⟩

/-- Message-schedule extension: appends `fuel` further words `w[i] =
w[i-16] + σ0(w[i-15]) + w[i-7] + σ1(w[i-2])` to the 16 words of a block. -/
def extendW : ℕ → List ℕ → List ℕ
  | 0, w => w
  | fuel + 1, w =>
      let len := w.length
      let s0w := rotr 7 (w.getD (len - 15) 0) ^^^ rotr 18 (w.getD (len - 15) 0) ^^^
                   (w.getD (len - 15) 0 >>> 3)
      let s1w := rotr 17 (w.getD (len - 2) 0) ^^^ rotr 19 (w.getD (len - 2) 0) ^^^
                   (w.getD (len - 2) 0 >>> 10)
      extendW fuel (w ++ [w32 (w.getD (len - 16) 0 + s0w + w.getD (len - 7) 0 + s1w)])

/-- SHA-256 compression of one 64-word schedule into the hash state. -/
def shaCompress (hs : Sha8) (ws : List ℕ) : Sha8 :=
  let st := (shaK.zip ws).foldl (fun st kw => shaRound st kw.1 kw.2) hs
  ⟨w32 (hs.a + st.a), w32 (hs.b + st.b), w32 (hs.c + st.c), w32 (hs.d + st.d),
   w32 (hs.e + st.e), w32 (hs.f + st.f), w32 (hs.g + st.g), w32 (hs.h + st.h)⟩

/-- SHA-256 padding: append `0x80`, zeros up to 56 mod 64 bytes, and the
big-endian 64-bit message bit length. -/
def shaPad (msg : List ℕ) : List ℕ :=
  let L := msg.length
  msg ++ 128 :: List.replicate ((119 - L % 64) % 64) 0 ++
    (List.range 8).map (fun i => ((8 * L) >>> (8 * (7 - i))) % 256)

/-- Split a byte list into 64-byte blocks (`fuel` bounds the number of
steps; it starts at the list length, which every step strictly
decreases, so it never runs out). -/
def chunks64Aux : ℕ → List ℕ → List (List ℕ)
  | 0, _ => []
  | _, [] => []
  | fuel + 1, b :: rest => (b :: rest).take 64 :: chunks64Aux fuel ((b :: rest).drop 64)

/-- Split a byte list into 64-byte blocks. -/
def chunks64 (l : List ℕ) : List (List ℕ) := chunks64Aux l.length l

/-- The 16 big-endian 32-bit words of a 64-byte block. -/
def blockWords (block : List ℕ) : List ℕ :=
  (List.range 16).map (fun i =>
    block.getD (4 * i) 0 * 16777216 + block.getD (4 * i + 1) 0 * 65536 +
      block.getD (4 * i + 2) 0 * 256 + block.getD (4 * i + 3) 0)

/-- The four big-endian bytes of a 32-bit word. -/
def wordBytes (h : ℕ) : List ℕ :=
  [(h >>> 24) % 256, (h >>> 16) % 256, (h >>> 8) % 256, h % 256]

/-- SHA-256 of a byte list, as a 32-byte list. -/
def sha256 (msg : List ℕ) : List ℕ :=
  let final := (chunks64 (shaPad msg)).foldl
    (fun hs blk => shaCompress hs (extendW 48 (blockWords blk))) shaInit
  [final.a, final.b, final.c, final.d,
   final.e, final.f, final.g, final.h].flatMap wordBytes

/-- HMAC-SHA256 of a message under a key (both byte lists): keys longer
than the 64-byte block size are first hashed, then zero-padded to the
block size, and combined with the `0x36`/`0x5c` pads. -/
def hmacSha256 (key msg : List ℕ) : List ℕ :=
  let k0 := if 64 < key.length then sha256 key else key
  let kp := k0 ++ List.replicate (64 - k0.length) 0
  sha256 (kp.map (fun b => b ^^^ 0x5c) ++ sha256 (kp.map (fun b => b ^^^ 0x36) ++ msg))

/-! ## Hex strings and byte encodings -/

/-- The lowercase hex digits used by node's `digest('hex')`. -/
def hexDigits : List Char := "0123456789abcdef".data

/-- The hex character of a nibble. -/
def hexChar (n : ℕ) : Char := hexDigits.getD (n % 16) '0'

/-- Lowercase hex encoding of a byte list (`digest('hex')`). -/
def bytesToHex (bs : List ℕ) : String :=
  ⟨bs.flatMap (fun b => [hexChar (b / 16), hexChar (b % 16)])⟩

/-- The numeric value of a hex digit, as `parseInt(·, 16)` assigns it;
`none` for a character that is not a hex digit. -/
def hexVal? (c : Char) : Option ℕ :=
  if '0' ≤ c ∧ c ≤ '9' then some (c.toNat - 48)
  else if 'a' ≤ c ∧ c ≤ 'f' then some (c.toNat - 87)
  else if 'A' ≤ c ∧ c ≤ 'F' then some (c.toNat - 55)
  else none

/-- JavaScript `parseInt(s, 16)` for the all-hex strings it is applied to (slices of a
hex digest); the 13-hex-digit values in use are below `2^53` and hence
exact in a JavaScript number. -/
def hexToNat (s : String) : ℕ :=
  s.data.foldl (fun a c => 16 * a + (hexVal? c).getD 0) 0

/-- The bytes of an ASCII string, as node's `crypto` consumes string
arguments (UTF-8; every string passed in the client — hex seeds — is
ASCII, where UTF-8 is the code points themselves). -/
def strBytes (s : String) : List ℕ := s.data.map Char.toNat

/-! ## `src/Lib.js`: the provably-fair crash verifier -/

namespace Lib

/-- The long-lived public client seed (`Lib.clientSeed`). -/
def clientSeed : String :=
  "000000000000000007a9a31ff7f07463d91af6b5454241d5faf282e5e0fe1b3a"

/-- JavaScript `ToInt32`: reduce modulo `2^32` into `[-2^31, 2^31)`. -/
def toInt32 (x : ℤ) : ℤ :=
  let u := x % 4294967296
  if u < 2147483648 then u else u - 4294967296

/-- One step of the `reduce` inside `Lib.divisible`:
`((r << 4) + parseInt(d,16)) % mod`.  `<<` is the 32-bit signed shift
(`ToInt32` of the operand, shift, reinterpret as int32) and `%` is
JavaScript's truncated remainder (`Int.tmod`).  A non-hex character makes
`parseInt` return `NaN`, modelled by `none` (`none` is sticky here whereas
JavaScript's `NaN << 4` recovers to `0`; the only caller passes hex
digests, proved all-hex below, where the two agree). -/
def divStep (m : ℤ) (r : Option ℤ) (d : Char) : Option ℤ :=
  r.bind fun rv => (hexVal? d).map fun (dv : ℕ) =>
    Int.tmod (toInt32 (toInt32 rv * 16) + (dv : ℤ)) m

/-- The function `Lib.divisible(hash, mod)`: reduce the hash digit by digit and test
the result against zero. -/
def divisible (hash : String) (m : ℤ) : Bool :=
  hash.data.foldl (divStep m) (some 0) == some 0

/-- The function `Lib.crashPoint(serverSeed)`.  The digest is the HMAC-SHA256 of the
client seed under the server seed; a digest divisible by 101 gives an
instant crash `0`; otherwise the first 13 hex characters give `h` and the
result is `Math.floor((100 * e - h) / (e - h))` with `e = 2^52`, which for
naturals `h < e` is exact natural division (the double rounding inside the
JavaScript quotient is not modelled). -/
def crashPoint (serverSeed : String) : ℕ :=
  let hash := bytesToHex (hmacSha256 (strBytes serverSeed) (strBytes clientSeed))
  if divisible hash 101 then 0
  else
    let h := hexToNat (String.take hash 13)
    let e : ℕ := 2 ^ 52
    (100 * e - h) / (e - h)

/-! Real-valued growth functions.  `growthFunc`, `inverseGrowth` and
`duration` are transcendental floating-point computations in the source;
they are embedded over the real numbers with exact constants
(`0.00006 = 3/50000` and `16666.66666667 = 1666666666667/100000000`). -/

/-- The function `Lib.growthFunc(ms) = Math.floor(100 * Math.pow(Math.E, r * ms))`
with `r = 0.00006`. -/
noncomputable def growthFunc (ms : ℝ) : ℤ :=
  ⌊100 * Real.exp (0.00006 * ms)⌋

/-- The function `Lib.inverseGrowth(result) = c * Math.log(0.01 * result)` with
`c = 16666.66666667`. -/
noncomputable def inverseGrowth (result : ℝ) : ℝ :=
  16666.66666667 * Real.log (0.01 * result)

/-- The function `Lib.duration(cp) = Math.ceil(Lib.inverseGrowth(cp + 1))`. -/
noncomputable def duration (cp : ℤ) : ℤ :=
  ⌈inverseGrowth ((cp : ℝ) + 1)⌉

end Lib

/-! Specification-side restatement for claim C1: fold the digest's hex
digits left-to-right as `acc = (acc*16 + nibble) mod 101`. -/

/-- The digest reduced modulo 101 as the specification words it. -/
def digestMod101 (hash : String) : ℕ :=
  hash.data.foldl (fun acc c => (acc * 16 + (hexVal? c).getD 0) % 101) 0

/-- The crash point as claim C1 words it: HMAC digest, instant-crash test
by the plain left-to-right fold modulo 101, and otherwise
`⌊(100·e − h) / (e − h)⌋` on the first 13 hex characters. -/
def crashPointSpec (serverSeed : String) : ℕ :=
  let digest := bytesToHex (hmacSha256 (strBytes serverSeed) (strBytes Lib.clientSeed))
  if digestMod101 digest = 0 then 0
  else
    (100 * 2 ^ 52 - hexToNat (String.take digest 13)) /
      (2 ^ 52 - hexToNat (String.take digest 13))

/-! ## The game-session client (`src/unnamed/part_000`)

The socket `Client`: its mutable state and the event handlers and query
methods the claims concern.  Timestamps (`Date.now()`, `microtime.now()`)
and the growth function are passed in as parameters where a handler reads
them; event emission (`this.emit(...)`) does not mutate client state and
is not modelled. -/

/-- One entry of `game.ticks`: `{ elapsed, growth, micro }`.  `micro` is a
JavaScript value because the hypothetical ticks built by
`estimateNextTick` carry `undefined` there. -/
structure Tick where
  elapsed : ℤ
  growth : ℤ
  micro : JSNum
  deriving DecidableEq, Repr

instance : Inhabited Tick := ⟨{ elapsed := 0, growth := 0, micro := .nan }⟩

/-- A `game.players` record.  The client only ever reads or writes the
`bet`, `stopped_at` and `bonus` properties; absent properties are `none`. -/
structure PlayerInfo where
  bet : Option ℤ := none
  stopped_at : Option ℤ := none
  bonus : Option ℤ := none
  deriving DecidableEq, Repr

/-- The `this.game` object.  `players` is an association list keyed by the
(case-preserved, unique) username.  The constructor sites initialize a
lowercase `crashpoint` field, while `onGameCrash` assigns a distinct
`crashPoint` property; only the latter is ever read back, so only it is
modelled. -/
structure Game where
  id : ℤ
  serverSeedHash : Option String
  players : List (String × PlayerInfo)
  state : String
  startTime : ℤ
  microStartTime : ℤ
  ticks : List Tick
  crashPoint : Option ℤ := none
  serverSeed : Option String := none
  forced : Option Bool := none
  deriving DecidableEq, Repr

/-- The client state.  `userState` is `null` before the first join, then
one of the strings WATCHING, PLACING, PLACED, PLAYING, CASHINGOUT,
CASHEDOUT, CRASHED.  `game` is `null` only before the first join and every
game-event handler dereferences it, so it is modelled as always present.
The `Client` object has no `state` property: `onGameCrash`'s read of
`this.state` yields `undefined`. -/
structure Client where
  userState : Option String
  lastServerSeed : Option String
  username : Option String
  balance : ℤ
  game : Game
  tickModel : LinearModel
  deriving DecidableEq, Repr

/-- The method `getLastTick`: lodash `_.last(ticks)`, recovering the sentinel of `getLastTick`. -/
def Client.getLastTick (c : Client) : Tick :=
  match c.game.ticks.getLast? with
  | some t => t
  | none => { elapsed := 0, growth := 100, micro := .num 0 }

/-- The payload of a `game_crash` event. -/
structure CrashData where
  forced : Bool
  elapsed : ℤ
  game_crash : ℤ
  bonuses : List (String × ℤ)
  hash : String
  deriving DecidableEq, Repr

/-- Update one player record in the association list. -/
def setPlayer (ps : List (String × PlayerInfo)) (name : String)
    (f : PlayerInfo → PlayerInfo) : List (String × PlayerInfo) :=
  ps.map fun p => if p.1 = name then (p.1, f p.2) else p

/-- The bonus loop of `onGameCrash`: assigning
`this.game.players[name].bonus` throws a `TypeError` when the player is
missing (the preceding `console.assert` only logs), modelled as `none`. -/
def applyBonuses (ps : List (String × PlayerInfo)) :
    List (String × ℤ) → Option (List (String × PlayerInfo))
  | [] => some ps
  | (name, amt) :: rest =>
      if (ps.lookup name).isSome then
        applyBonuses (setPlayer ps name fun pi => { pi with bonus := some amt }) rest
      else
        none

/-- The handler `Client.prototype.onGameCrash`.  Stores the revealed seed, crash
point and forced flag, ends the round, applies bonuses, and moves the
local user to CRASHED — but only from PLAYING: the source's condition is

```js
if (this.userState === 'PLAYING' || this.state === 'CASHINGOUT')
```

and `this.state` reads an absent property of the `Client`, i.e.
`undefined`, which is never strictly equal to a string, so the second
disjunct is always false.  The balance is never touched.  On a missing
bonus player the JavaScript handler throws midway (after the seed and
state assignments, before the user-state update); the model collapses
that aborted run to `none` — no claim observes the partially mutated
state, and in both renderings the user state and balance are unchanged
by such a run. -/
def Client.onGameCrash (c : Client) (d : CrashData) : Option Client :=
  match applyBonuses c.game.players d.bonuses with
  | none => none
  | some players =>
      some { c with
        lastServerSeed := some d.hash,
        game := { c.game with
          serverSeed := some d.hash,
          crashPoint := some d.game_crash,
          forced := some d.forced,
          state := "ENDED",
          players := players },
        userState :=
          if c.userState = some "PLAYING" then some "CRASHED" else c.userState }

/-- The `for (let username in bets)` loop of `onGameStarted`: debit the
local balance for the local user's own confirmed bet and upsert every
confirmed bet into `players`. -/
def applyBets (localName : Option String) :
    (ℤ × List (String × PlayerInfo)) → List (String × ℤ) →
      ℤ × List (String × PlayerInfo)
  | acc, [] => acc
  | (balance, ps), (name, bet) :: rest =>
      let balance := if localName = some name then balance - bet else balance
      let ps :=
        if (ps.lookup name).isSome then
          setPlayer ps name fun pi => { pi with bet := some bet }
        else
          ps ++ [(name, { bet := some bet : PlayerInfo })]
      applyBets localName (balance, ps) rest

/-- The handler `Client.prototype.onGameStarted`: round → IN_PROGRESS, time anchors
reset to now, confirmed bets applied, a fresh tick model seeded with
`(0,0)`, the initial `elapsed = 0` tick appended, and the local user state
moved PLACED → PLAYING or PLACING → WATCHING. -/
def Client.onGameStarted (c : Client) (bets : List (String × ℤ))
    (now micronow : ℤ) : Client :=
  let bp := applyBets c.username (c.balance, c.game.players) bets
  { c with
    balance := bp.1,
    game := { c.game with
      state := "IN_PROGRESS",
      startTime := now,
      microStartTime := micronow,
      players := bp.2,
      ticks := c.game.ticks ++ [{ elapsed := 0, growth := 100, micro := .num 0 }] },
    tickModel := LinearModel.init.add 0 0,
    userState :=
      if c.userState = some "PLACED" then some "PLAYING"
      else if c.userState = some "PLACING" then some "WATCHING"
      else c.userState }

/-- The method `Client.prototype.estimateTickTimeDiff`: percentile bounds on the
successive elapsed-time deltas of the stored ticks.  The percentile
indices are `Math.floor(0.05 * diffs.length)` and
`Math.floor(0.95 * diffs.length)`; `0.05` and `0.95` are exact here where
the doubles are off by under `2^-53` relatively, too little to move the
floor for any list length below `2^52`. -/
def Client.estimateTickTimeDiff (c : Client) : ℤ × ℤ :=
  let ticks := c.game.ticks
  if ticks.length < 2 then (0, 0)
  else if ticks.length < 3 then
    let t := (ticks.getD 1 default).elapsed - (ticks.getD 0 default).elapsed
    (t, t)
  else if ticks.length < 4 then
    let t1 := (ticks.getD 1 default).elapsed - (ticks.getD 0 default).elapsed
    let t2 := (ticks.getD 2 default).elapsed - (ticks.getD 1 default).elapsed
    (min t1 t2, max t1 t2)
  else
    let diffs := List.zipWith (fun a b => b.elapsed - a.elapsed) ticks ticks.tail
    let sorted := diffs.insertionSort (· ≤ ·)
    (sorted.getD (⌊(0.05 : ℚ) * diffs.length⌋).toNat 0,
     sorted.getD (⌊(0.95 : ℚ) * diffs.length⌋).toNat 0)

/-- The method `Client.prototype.elapsedToMicro`:

```js
Client.prototype.elapsedToMicro = function(elapsed) {
  this.tickModel.evaluate(elapsed);
};
```

the body evaluates the model and discards the result; the function has no
return statement, so every call yields `undefined`. -/
def Client.elapsedToMicro (c : Client) (elapsed : ℚ) : JSNum :=
  let _ := c.tickModel.evaluate elapsed
  JSNum.undef

/-- The method `Client.prototype.estimateNextTick`, parametrized by the growth
function `gf` standing for `Lib.growthFunc` (whose transcendental values
are irrelevant here).  `Math.floor` on the sum of two integer elapsed
values is the identity. -/
def Client.estimateNextTick (gf : ℤ → ℤ) (c : Client) : Tick × Tick :=
  let last := c.getLastTick
  let tickdiff := c.estimateTickTimeDiff
  let lowerElapsed := last.elapsed + tickdiff.1
  let upperElapsed := last.elapsed + tickdiff.2
  ({ elapsed := lowerElapsed, growth := gf lowerElapsed,
     micro := c.elapsedToMicro lowerElapsed },
   { elapsed := upperElapsed, growth := gf upperElapsed,
     micro := c.elapsedToMicro upperElapsed })

/-- The verification verdict attached by `getGameInfo` once the round has
ENDED, as a function of the computed crash point `cp` and the
server-reported crash multiplier (both integers in ×100 units):

```js
let diff = Math.abs(cp - this.game.crashPoint);
gameInfo.verified = diff === 0 || cp > 1e6 && diff < 0.08 ? "ok" : "scam";
```

`0.08` is compared against the integer `diff` (its double value lies
strictly between 0 and 1, so the comparison is exact over ℚ). -/
def getGameInfoVerified (cp reported : ℤ) : String :=
  let diff : ℤ := |cp - reported|
  if diff = 0 ∨ (1000000 < cp ∧ (diff : ℚ) < 0.08) then "ok" else "scam"

/-! ## Concrete fixtures (used by witnesses and counterexamples) -/

/-- A mid-round tick sample. -/
def demoTick : Tick := { elapsed := 2500, growth := 116, micro := .num 2509000 }

/-- A round in progress with one tick and two players. -/
def demoGame : Game :=
  { id := 1023470,
    serverSeedHash := some "c7a6e51b81d78bc3f01996cf76cd64aea3cb5b7fcdea65d28f3d16c3f7622081",
    players := [("Steve", { bet := some 500000 }), ("Shiba", { bet := some 21600 })],
    state := "IN_PROGRESS",
    startTime := 0,
    microStartTime := 0,
    ticks := [demoTick] }

/-- A `game_crash` payload with no bonuses. -/
def demoCrash : CrashData :=
  { forced := false, elapsed := 3597, game_crash := 350, bonuses := [],
    hash := "20c8a18be0fb4d4529b661938350bfbea3ed822c4dc83e764a079efa14ec9af9" }

/-- A session whose local user is mid-cashout when the crash arrives. -/
def cCashing : Client :=
  { userState := some "CASHINGOUT",
    lastServerSeed := demoGame.serverSeedHash,
    username := some "Shiba",
    balance := 133700,
    game := demoGame,
    tickModel := LinearModel.init }

/-- The same session with the local user still playing. -/
def cPlaying : Client := { cCashing with userState := some "PLAYING" }

/-- The same session with the local user's bet confirmed (PLACED), during
the starting phase. -/
def cPlaced : Client := { cCashing with userState := some "PLACED" }

/-- A round with six ticks whose elapsed deltas are the specification's
percentile example `[250, 250, 260, 240, 255]`. -/
def cSixTicks : Client :=
  { cPlaying with
    game := { demoGame with
      ticks := [{ elapsed := 0, growth := 100, micro := .num 0 },
                { elapsed := 250, growth := 101, micro := .num 251000 },
                { elapsed := 500, growth := 103, micro := .num 502000 },
                { elapsed := 760, growth := 104, micro := .num 763000 },
                { elapsed := 1000, growth := 106, micro := .num 1004000 },
                { elapsed := 1255, growth := 107, micro := .num 1260000 }] } }

/-! ## Claim C4 -/

/-- C4: the claim says that with fewer than two distinct samples
`evaluate` refuses to produce a projection and returns an explicit
"insufficient data" error or sentinel rather than silently propagating
NaN or a division by zero.  The code has no such guard: after the single
sample `add(0,0)` (the seed point of `onGameStarted`), `evaluate(2500)`
silently returns `NaN` — the never-initialized `sx2` is `undefined` and
the divisions by the never-incremented `n = 0` poison `alpha` and `beta` —
and on a completely fresh model it silently returns the number `0`.
Neither is an error or a distinguished "insufficient data" sentinel. -/
theorem linearModel_evaluate_no_guard :
    (LinearModel.init.add 0 0).evaluate 2500 = JSNum.nan ∧
      LinearModel.init.evaluate 2500 = JSNum.num 0 := by
  constructor
  · norm_num [LinearModel.init, LinearModel.add, LinearModel.evaluate,
      JSNum.add, JSNum.sub, JSNum.mul, JSNum.div, JSNum.toNum]
  · norm_num [LinearModel.init, LinearModel.evaluate,
      JSNum.add, JSNum.mul, JSNum.toNum]

/-! ## Claim C5 -/

/-- C5: the claim says that after `add(0,0)` and `add(5000, 5100)`,
`evaluate(2500)` is approximately `2550` and in particular a finite
number, not NaN.  On the code it is NaN: the constructor leaves `sx2`
undefined (`undefined + x*x` is NaN) and `n` is never incremented past
`0`, so `beta` and `alpha` are NaN after every `add`, and
`evaluate(2500) = alpha + 2500 * beta` is NaN, not ≈ 2550. -/
theorem linearModel_evaluate_two_points_nan :
    ((LinearModel.init.add 0 0).add 5000 5100).evaluate 2500 = JSNum.nan := by
  norm_num [LinearModel.init, LinearModel.add, LinearModel.evaluate,
    JSNum.add, JSNum.sub, JSNum.mul, JSNum.div, JSNum.toNum]

/-! ## Claim C2 -/

/-- C2: the claim says that above 1,000,000 the verdict is "ok" exactly
when |cp − r| is strictly below 8 in ×100 units (0.08 in real-multiplier
units).  The code compares the ×100-unit difference against the literal
`0.08` itself — contradicting its own comment, which announces a `0.08x`
tolerance — so at `cp = 1000002`, `r = 1000001` (difference 1 < 8) it
answers "scam" where the claim requires "ok"; in fact for the integer
crash points being compared the verdict is "ok" exactly on equality, at
every magnitude: the tolerance branch is dead. -/
theorem getGameInfoVerified_exact_only :
    getGameInfoVerified 1000002 1000001 = "scam" ∧
      ∀ cp reported : ℤ,
        (getGameInfoVerified cp reported = "ok" ↔ cp = reported) := by
  constructor
  · norm_num [getGameInfoVerified]
  · intro cp r
    rcases eq_or_ne cp r with h | h
    · simp [getGameInfoVerified, h]
    · have h1 : (1 : ℤ) ≤ |cp - r| := Int.one_le_abs (sub_ne_zero.mpr h)
      have h2 : ¬((|cp - r| : ℤ) : ℚ) < 0.08 := by
        push_neg
        have hq : ((1 : ℤ) : ℚ) ≤ ((|cp - r| : ℤ) : ℚ) := by exact_mod_cast h1
        calc (0.08 : ℚ) ≤ ((1 : ℤ) : ℚ) := by norm_num
        _ ≤ _ := hq
      simp only [getGameInfoVerified]
      rw [if_neg]
      · simp [h]
      · rintro (habs | ⟨-, hlt⟩)
        · exact h (sub_eq_zero.mp (abs_eq_zero.mp habs))
        · exact h2 hlt

/-! ## Claim C3 -/

/-- C3 (counterexample): the claim says a user in state CASHINGOUT when
`game_crash` is processed ends in CRASHED.  On the code the crash handler
tests `this.state === 'CASHINGOUT'` — reading an absent property of the
`Client`, which yields `undefined` — so a CASHINGOUT user is left in
CASHINGOUT, not CRASHED. -/
theorem onGameCrash_cashingout_stays :
    cCashing.userState = some "CASHINGOUT" ∧
      (Client.onGameCrash cCashing demoCrash).map Client.userState
        = some (some "CASHINGOUT") ∧
      (Client.onGameCrash cCashing demoCrash).map Client.userState
        ≠ some (some "CRASHED") := by
  refine ⟨rfl, rfl, by decide⟩

/-- C3 (amended): when a `game_crash` event is processed for a session in
state PLAYING or CASHINGOUT, a PLAYING user moves to CRASHED while a
CASHINGOUT user keeps its state (the CASHINGOUT test reads an undefined
property and never fires); in both cases the local balance is unchanged
(nothing is credited). -/
theorem onGameCrash_playing_crashed (c : Client) (d : CrashData) (c2 : Client)
    (_hs : c.userState = some "PLAYING" ∨ c.userState = some "CASHINGOUT")
    (h : Client.onGameCrash c d = some c2) :
    c2.userState =
        (if c.userState = some "PLAYING" then some "CRASHED" else c.userState) ∧
      c2.balance = c.balance := by
  unfold Client.onGameCrash at h
  cases happ : applyBonuses c.game.players d.bonuses with
  | none => rw [happ] at h; simp at h
  | some ps =>
      rw [happ] at h
      simp only [Option.some.injEq] at h
      subst h
      exact ⟨rfl, rfl⟩

/-- Witness for the amended C3 at a concrete PLAYING session. -/
theorem onGameCrash_playing_crashed_witness :
    (Client.onGameCrash cPlaying demoCrash).map Client.userState
        = some (some "CRASHED") ∧
      (Client.onGameCrash cPlaying demoCrash).map Client.balance
        = some cPlaying.balance := by
  have h : Client.onGameCrash cPlaying demoCrash =
      some { cPlaying with
        lastServerSeed := some demoCrash.hash,
        userState := some "CRASHED",
        game := { cPlaying.game with
          serverSeed := some demoCrash.hash,
          crashPoint := some demoCrash.game_crash,
          forced := some demoCrash.forced,
          state := "ENDED",
          players := cPlaying.game.players } } := by rfl
  have h2 := onGameCrash_playing_crashed cPlaying demoCrash _ (Or.inl rfl) h
  constructor
  · rw [h, Option.map_some', h2.1]
    decide
  · rw [h, Option.map_some', h2.2]

/-! ## Claim C6 -/

/-- C6: when `game_started` is processed, PLACED moves to PLAYING,
PLACING moves to WATCHING (in particular, the state is never left at
PLACING), and every other local user state is unchanged. -/
theorem onGameStarted_transitions (c : Client) (bets : List (String × ℤ))
    (now micronow : ℤ) :
    ((c.onGameStarted bets now micronow).userState =
        if c.userState = some "PLACED" then some "PLAYING"
        else if c.userState = some "PLACING" then some "WATCHING"
        else c.userState) ∧
      (c.onGameStarted bets now micronow).userState ≠ some "PLACING" := by
  refine ⟨rfl, ?_⟩
  show (if c.userState = some "PLACED" then some "PLAYING"
        else if c.userState = some "PLACING" then some "WATCHING"
        else c.userState) ≠ some "PLACING"
  by_cases h1 : c.userState = some "PLACED"
  · simp [h1]
  · by_cases h2 : c.userState = some "PLACING"
    · simp [h1, h2]
    · simp [h1, h2]

/-- Witness for C6: a PLACED user at a concrete session is PLAYING after
`game_started`. -/
theorem onGameStarted_transitions_witness :
    (cPlaced.onGameStarted [("Shiba", 21600)] 5000 5000000).userState
      = some "PLAYING" := by
  have h := (onGameStarted_transitions cPlaced [("Shiba", 21600)] 5000 5000000).1
  rw [h]
  decide

/-! ## Claim C10 -/

/-- C10: `getLastTick` returns the most recently appended tick whenever
the round's tick list is non-empty, and the sentinel
`{elapsed: 0, growth: 100, micro: 0}` when it is empty. -/
theorem getLastTick_spec (c : Client) :
    (∀ pre t, c.game.ticks = pre ++ [t] → c.getLastTick = t) ∧
      (c.game.ticks = [] →
        c.getLastTick = { elapsed := 0, growth := 100, micro := .num 0 }) := by
  constructor
  · intro pre t h
    unfold Client.getLastTick
    rw [h, List.getLast?_concat]
  · intro h
    unfold Client.getLastTick
    rw [h]
    rfl

/-- Witness for C10 at a concrete one-tick round. -/
theorem getLastTick_spec_witness : Client.getLastTick cPlaying = demoTick :=
  (getLastTick_spec cPlaying).1 [] demoTick rfl

/-! ## Claim C8 -/

/-- The index `Math.floor(0.05 * n)` is natural division by 20. -/
theorem floorIdx05 (n : ℕ) : (⌊(0.05 : ℚ) * n⌋).toNat = n / 20 := by
  rw [Int.floor_toNat, show (0.05 : ℚ) * n = (n : ℚ) / (20 : ℕ) by push_cast; ring,
    Nat.floor_div_eq_div]

/-- The index `Math.floor(0.95 * n)` is `19 * n / 20` in natural division. -/
theorem floorIdx95 (n : ℕ) : (⌊(0.95 : ℚ) * n⌋).toNat = 19 * n / 20 := by
  rw [Int.floor_toNat,
    show (0.95 : ℚ) * n = ((19 * n : ℕ) : ℚ) / (20 : ℕ) by push_cast; ring,
    Nat.floor_div_eq_div]

/-- C8: `estimateTickTimeDiff` returns `{lower: 0, upper: 0}` for 0 or 1
ticks; with exactly 2 ticks both bounds are the single delta; with
exactly 3 ticks the min and max of the two deltas; with 4 or more ticks
the ascending-sorted deltas indexed at `floor(0.05·count)` and
`floor(0.95·count)`. -/
theorem estimateTickTimeDiff_spec (c : Client) :
    (c.game.ticks.length ≤ 1 → c.estimateTickTimeDiff = (0, 0)) ∧
      (∀ t0 t1, c.game.ticks = [t0, t1] →
        c.estimateTickTimeDiff =
          (t1.elapsed - t0.elapsed, t1.elapsed - t0.elapsed)) ∧
      (∀ t0 t1 t2, c.game.ticks = [t0, t1, t2] →
        c.estimateTickTimeDiff =
          (min (t1.elapsed - t0.elapsed) (t2.elapsed - t1.elapsed),
           max (t1.elapsed - t0.elapsed) (t2.elapsed - t1.elapsed))) ∧
      (4 ≤ c.game.ticks.length →
        c.estimateTickTimeDiff =
          (((List.zipWith (fun a b => b.elapsed - a.elapsed) c.game.ticks
                c.game.ticks.tail).insertionSort (· ≤ ·)).getD
              ((List.zipWith (fun a b => b.elapsed - a.elapsed) c.game.ticks
                c.game.ticks.tail).length / 20) 0,
           ((List.zipWith (fun a b => b.elapsed - a.elapsed) c.game.ticks
                c.game.ticks.tail).insertionSort (· ≤ ·)).getD
              (19 * (List.zipWith (fun a b => b.elapsed - a.elapsed) c.game.ticks
                c.game.ticks.tail).length / 20) 0)) := by
  refine ⟨?_, ?_, ?_, ?_⟩
  · intro h
    simp only [Client.estimateTickTimeDiff]
    rw [if_pos (by omega)]
  · intro t0 t1 h
    simp only [Client.estimateTickTimeDiff, h]
    norm_num
  · intro t0 t1 t2 h
    simp only [Client.estimateTickTimeDiff, h]
    norm_num
  · intro h
    simp only [Client.estimateTickTimeDiff]
    have h2 : ¬c.game.ticks.length < 2 := by omega
    have h3 : ¬c.game.ticks.length < 3 := by omega
    have h4 : ¬c.game.ticks.length < 4 := by omega
    rw [if_neg h2, if_neg h3, if_neg h4, floorIdx05, floorIdx95]

/-- Witness for C8 on the specification's example: deltas
`[250,250,260,240,255]` give lower 240 and upper 260. -/
theorem estimateTickTimeDiff_spec_witness :
    Client.estimateTickTimeDiff cSixTicks = (240, 260) := by
  rw [(estimateTickTimeDiff_spec cSixTicks).2.2.2 (by decide)]
  decide

/-! ## Claim C9 -/

/-- JavaScript numeric addition never produces `undefined`. -/
theorem jsAdd_ne_undef (a b : JSNum) : JSNum.add a b ≠ JSNum.undef := by
  cases a <;> cases b <;> simp [JSNum.add, JSNum.toNum]

/-- C9: the claim says the two hypothetical ticks of `estimateNextTick`
sit at `lastElapsed + lower` and `lastElapsed + upper` with `growth` from
the growth function — which holds — and carry "a projected monotonic
offset equal to the model's evaluate at that elapsed time" — which fails:
`elapsedToMicro` computes `this.tickModel.evaluate(elapsed)` but has no
return statement, so both `micro` fields are `undefined`, a value
`evaluate` (whose results come from numeric `+`) can never produce. -/
theorem estimateNextTick_micro_undefined (gf : ℤ → ℤ) (c : Client) :
    ((Client.estimateNextTick gf c).1.elapsed
          = c.getLastTick.elapsed + c.estimateTickTimeDiff.1 ∧
        (Client.estimateNextTick gf c).2.elapsed
          = c.getLastTick.elapsed + c.estimateTickTimeDiff.2 ∧
        (Client.estimateNextTick gf c).1.growth
          = gf (c.getLastTick.elapsed + c.estimateTickTimeDiff.1) ∧
        (Client.estimateNextTick gf c).2.growth
          = gf (c.getLastTick.elapsed + c.estimateTickTimeDiff.2)) ∧
      (Client.estimateNextTick gf c).1.micro = JSNum.undef ∧
      (Client.estimateNextTick gf c).2.micro = JSNum.undef ∧
      ∀ x : ℚ, c.tickModel.evaluate x ≠ JSNum.undef := by
  refine ⟨⟨rfl, rfl, rfl, rfl⟩, rfl, rfl, fun x => ?_⟩
  simp only [LinearModel.evaluate]
  exact jsAdd_ne_undef _ _

/-! ## Claim C1 -/

/-- Every character emitted by the hex alphabet is a hex digit with the
expected value. -/
theorem hexVal_hexChar (n : ℕ) : hexVal? (hexChar n) = some (n % 16) := by
  have hlt : n % 16 < 16 := Nat.mod_lt _ (by norm_num)
  have hfin : ∀ m : Fin 16, hexVal? (hexDigits.getD m.1 '0') = some m.1 := by decide
  simpa [hexChar] using hfin ⟨n % 16, hlt⟩

/-- Every character of a hex-encoded byte list is a hex digit. -/
theorem bytesToHex_isHex (bs : List ℕ) :
    ∀ c ∈ (bytesToHex bs).data, ∃ v, hexVal? c = some v ∧ v < 16 := by
  intro c hc
  have hc2 : c ∈ bs.flatMap (fun b => [hexChar (b / 16), hexChar (b % 16)]) := hc
  obtain ⟨b, -, hcb⟩ := List.mem_flatMap.mp hc2
  have hm : ∀ k : ℕ, ∃ v, hexVal? (hexChar k) = some v ∧ v < 16 :=
    fun k => ⟨k % 16, hexVal_hexChar k, Nat.mod_lt _ (by norm_num)⟩
  simp only [List.mem_cons, List.not_mem_nil, or_false] at hcb
  rcases hcb with hcb | hcb
  · exact hcb ▸ hm (b / 16)
  · exact hcb ▸ hm (b % 16)

/-- JavaScript ToInt32 fixes the small non-negative integers appearing in the
divisibility fold modulo 101. -/
theorem toInt32_small (x : ℤ) (h0 : 0 ≤ x) (h : x < 2147483648) :
    Lib.toInt32 x = x := by
  simp only [Lib.toInt32]
  rw [Int.emod_eq_of_lt h0 (by omega), if_pos (by omega)]

/-- On an all-hex character list, the JavaScript reduction of
`Lib.divisible` — int32 shifts, truncated remainder, `NaN` tracking —
computes exactly the plain left-to-right fold
`acc = (acc*16 + nibble) mod 101` over the hex-digit values. -/
theorem foldl_divStep_eq (cs : List Char) :
    ∀ r : ℕ, r < 101 → (∀ c ∈ cs, ∃ v, hexVal? c = some v ∧ v < 16) →
      cs.foldl (Lib.divStep 101) (some (r : ℤ)) =
        some ((cs.foldl (fun acc c => (acc * 16 + (hexVal? c).getD 0) % 101) r : ℕ) : ℤ) := by
  induction cs with
  | nil => intro r _ _; rfl
  | cons c cs ih =>
      intro r hr hhex
      obtain ⟨v, hv, hv16⟩ := hhex c (List.mem_cons_self c cs)
      have hstep : Lib.divStep 101 (some (r : ℤ)) c =
          some (((r * 16 + v) % 101 : ℕ) : ℤ) := by
        unfold Lib.divStep
        rw [Option.some_bind, hv, Option.map_some']
        rw [toInt32_small (r : ℤ) (by positivity) (by omega),
          toInt32_small ((r : ℤ) * 16) (by positivity) (by omega),
          Int.tmod_eq_emod (by positivity) (by norm_num),
          show (r : ℤ) * 16 + (v : ℤ) = ((r * 16 + v : ℕ) : ℤ) by push_cast; ring]
        exact_mod_cast rfl
      rw [List.foldl_cons, hstep, List.foldl_cons,
        ih _ (Nat.mod_lt _ (by norm_num)) (fun c hc => hhex c (List.mem_cons_of_mem _ hc)),
        hv]
      rfl

/-- On an all-hex string, `Lib.divisible hash 101` holds exactly when the
specification's fold `digestMod101` ends at zero. -/
theorem divisible_eq_digestMod101 (hash : String)
    (hhex : ∀ c ∈ hash.data, ∃ v, hexVal? c = some v ∧ v < 16) :
    (Lib.divisible hash 101 = true ↔ digestMod101 hash = 0) := by
  unfold Lib.divisible digestMod101
  rw [show (some (0 : ℤ)) = some ((0 : ℕ) : ℤ) by norm_num,
    foldl_divStep_eq hash.data 0 (by norm_num) hhex]
  simp

/-- C1: `crashPoint(serverSeed)` computes the hex HMAC-SHA256 digest with
key `serverSeed` and message the fixed client seed; if folding the
digest's hex digits left-to-right as `acc = (acc*16 + nibble) mod 101`
ends at 0 the result is 0, and otherwise, with `h` the value of the first
13 hex characters and `e = 2^52`, the result is
`⌊(100·e − h) / (e − h)⌋`. -/
theorem crashPoint_formula (serverSeed : String) :
    Lib.crashPoint serverSeed = crashPointSpec serverSeed := by
  simp only [Lib.crashPoint, crashPointSpec]
  have hhex := bytesToHex_isHex (hmacSha256 (strBytes serverSeed) (strBytes Lib.clientSeed))
  have hiff := divisible_eq_digestMod101 _ hhex
  by_cases hd :
      digestMod101 (bytesToHex (hmacSha256 (strBytes serverSeed) (strBytes Lib.clientSeed))) = 0
  · rw [if_pos (hiff.mpr hd), if_pos hd]
  · rw [if_neg (fun hc => hd (hiff.mp hc)), if_neg hd]

set_option maxRecDepth 100000 in
/-- Concrete check of the full pipeline: under the fixed client seed the
server seed `"seed26"` hashes to a digest divisible by 101, an instant
crash. -/
theorem crashPoint_instant_example : Lib.crashPoint "seed26" = 0 := by decide

set_option maxRecDepth 100000 in
/-- Concrete check of the non-instant branch: this 64-char hex server
seed yields the multiplier 1.74× (174 in ×100 units), matching an
independent HMAC-SHA256 computation. -/
theorem crashPoint_value_example :
    Lib.crashPoint "e0d4bb1e4e8b38ecf1ea6ee4f6c701a80e0a0bab2ddfc943d1e158a0e0280caa"
      = 174 := by decide

/-! ## Claim C7 -/

/-- At the round start the multiplier is exactly 1.00×. -/
theorem growthFunc_zero : Lib.growthFunc 0 = 100 := by
  unfold Lib.growthFunc
  norm_num [Real.exp_zero]

/-- C7 (counterexample): the claim says `duration(growth(t))` recovers
`t` within ±1ms for every `t ≥ 0`.  At `t = 0`: `growth(0) = 100` and
`duration(100) = ⌈16666.66666667 · ln(1.01)⌉ = 166`, which misses `t = 0`
by far more than 1ms — `duration` reports the time at which the *next*
integer multiplier would be exceeded, and at low multipliers that is
about 166ms away. -/
theorem duration_growthFunc_zero_off :
    1 < |Lib.duration (Lib.growthFunc 0) - 0| := by
  rw [growthFunc_zero, sub_zero]
  have hlog : (1 / 101 : ℝ) ≤ Real.log 1.01 := by
    have h := Real.one_sub_inv_le_log_of_pos (x := (1.01 : ℝ)) (by norm_num)
    have h2 : (1 : ℝ) - (1.01 : ℝ)⁻¹ = 1 / 101 := by norm_num
    linarith
  have hd : (1 : ℤ) < Lib.duration 100 := by
    unfold Lib.duration Lib.inverseGrowth
    rw [Int.lt_ceil]
    have h2 : (0.01 : ℝ) * (((100 : ℤ) : ℝ) + 1) = 1.01 := by norm_num
    rw [h2]
    push_cast
    linarith
  rw [abs_of_pos (by omega)]
  exact hd

/-- C7 (amended): `duration(growth(t))` always recovers `t` from above —
`t ≤ duration(growth(t))` for every `t ≥ 0` — but the overshoot can reach
the full inter-multiplier gap (≈166ms at `t = 0`), not ±1ms. -/
theorem duration_growthFunc_ge (t : ℝ) (ht : 0 ≤ t) :
    t ≤ (Lib.duration (Lib.growthFunc t) : ℝ) := by
  have hexp1 : (1 : ℝ) ≤ Real.exp (0.00006 * t) := by
    have h := Real.add_one_le_exp (0.00006 * t)
    nlinarith
  have hg : (100 : ℤ) ≤ Lib.growthFunc t := by
    unfold Lib.growthFunc
    rw [Int.le_floor]
    push_cast
    nlinarith
  have hlt : 100 * Real.exp (0.00006 * t) < ((Lib.growthFunc t : ℤ) : ℝ) + 1 := by
    unfold Lib.growthFunc
    exact Int.lt_floor_add_one _
  set g := Lib.growthFunc t with hgdef
  have hgR : (100 : ℝ) ≤ (g : ℝ) := by exact_mod_cast hg
  have harg : (1 : ℝ) < 0.01 * ((g : ℝ) + 1) := by nlinarith
  have hexplt : Real.exp (0.00006 * t) < 0.01 * ((g : ℝ) + 1) := by nlinarith
  have hlog : 0.00006 * t < Real.log (0.01 * ((g : ℝ) + 1)) := by
    rw [← Real.log_exp (0.00006 * t)]
    exact Real.log_lt_log (Real.exp_pos _) hexplt
  have hlognn : 0 ≤ Real.log (0.01 * ((g : ℝ) + 1)) := Real.log_nonneg harg.le
  have key : t ≤ 16666.66666667 * Real.log (0.01 * ((g : ℝ) + 1)) := by linarith
  unfold Lib.duration Lib.inverseGrowth
  calc t ≤ 16666.66666667 * Real.log (0.01 * ((g : ℝ) + 1)) := key
  _ ≤ ((⌈16666.66666667 * Real.log (0.01 * ((g : ℝ) + 1))⌉ : ℤ) : ℝ) := Int.le_ceil _

/-- Witness for the amended C7 at `t = 0`. -/
theorem duration_growthFunc_ge_witness :
    (0 : ℝ) ≤ 0 ∧ (0 : ℝ) ≤ (Lib.duration (Lib.growthFunc 0) : ℝ) :=
  ⟨le_rfl, duration_growthFunc_ge 0 le_rfl⟩
